import Mathlib

/-!
# Verification of the Solsense terrain-derivative and shelf-packing core

Shallow embedding of the computational core of `latest.py`:

* `next_fit_shelf_packing` — the next-fit shelf rectangle packer;
* `calculate_slope_aspect_horn` — the Horn slope/aspect derivation
  (`_calculate_slope_aspect_horn` in the source);
* `get_aspect_direction` — the compass-direction classifier
  (`_get_aspect_direction` in the source);
* the LRU-cached irradiance lookup (`_cached_nasa_call`, decorated with
  `functools.lru_cache(maxsize=32)`), modelled as an explicit LRU state
  machine over the sequence of rounded coordinate keys.

Python floats are idealised as exact arithmetic: ℚ for the packer and the
classifier (whose code is pure field arithmetic and comparisons), ℝ with an
explicit `Option` NaN for the terrain engine (whose code uses `arctan`,
`sqrt`, `atan2`, and NaN propagation through `numpy`).
-/

/-- A placed rectangle, the record `{'x': …, 'y': …, 'w': …, 'h': …}`
appended to `packed_objects_coords` in the source. -/
structure Rect where
  x : ℚ
  y : ℚ
  w : ℚ
  h : ℚ
deriving DecidableEq, Repr

/-- The break test `num_objects_to_pack is not None and
objects_placed >= num_objects_to_pack` at the top of the packing loop. -/
def reachedMax (maxN : Option ℤ) (placed : ℕ) : Bool :=
  match maxN with
  | none => false
  | some n => decide (n ≤ (placed : ℤ))

/-- The body of the `while iter_count < max_iterations` loop of
`next_fit_shelf_packing`, with the iteration budget as explicit fuel.
State: current x cursor, current shelf bottom y, number placed so far.
The shelf height is fixed to the item height `h`
(`shelf_effective_height_m = obj_height_m`). -/
def packLoop (W H w h : ℚ) (maxN : Option ℤ) :
    ℕ → ℚ → ℚ → ℕ → List Rect
  | 0, _, _, _ => []
  | fuel + 1, x, shelfY, placed =>
    if reachedMax maxN placed then []
    else
      if shelfY + h ≤ H then
        if x + w ≤ W then
          ⟨x, shelfY, w, h⟩ :: packLoop W H w h maxN fuel (x + w) shelfY (placed + 1)
        else
          if shelfY + h + h ≤ H then
            if 0 + w ≤ W then
              ⟨0, shelfY + h, w, h⟩ ::
                packLoop W H w h maxN fuel (0 + w) (shelfY + h) (placed + 1)
            else []
          else []
      else []

/-- `next_fit_shelf_packing(land_width_m, land_height_m, obj_width_m,
obj_height_m, num_objects_to_pack=None)`: the degenerate-input guards
followed by the bounded packing loop (`max_iterations = 1_000_000`),
starting from cursor `(0, 0)` with nothing placed. -/
def next_fit_shelf_packing (W H w h : ℚ) (maxN : Option ℤ) : List Rect :=
  if w ≤ 0 ∨ h ≤ 0 then []
  else if w > W ∨ h > H then []
  else packLoop W H w h maxN 1000000 0 0 0

/-- Number of whole items that fit across the plot: `⌊W / w⌋`. -/
def shelfCols (W w : ℚ) : ℕ := (⌊W / w⌋).toNat

/-- Number of whole shelves that fit up the plot: `⌊H / h⌋`. -/
def shelfRows (H h : ℚ) : ℕ := (⌊H / h⌋).toNat

/-- Two rectangles are separated on at least one axis, which for
positive-size rectangles is exactly disjointness of their interiors. -/
def rectDisjoint (a b : Rect) : Prop :=
  a.x + a.w ≤ b.x ∨ b.x + b.w ≤ a.x ∨ a.y + a.h ≤ b.y ∨ b.y + b.h ≤ a.y

/-- `_get_aspect_direction(degrees)`: the compass classifier. A `none`
input models a NaN float: in the source every comparison against NaN is
false, so NaN falls through every branch to the final `return "N/A"`. -/
def get_aspect_direction (degrees : Option ℚ) : String :=
  match degrees with
  | none => "N/A"
  | some d =>
    if d < 0 then "Flat"
    else if 337.5 ≤ d ∨ d < 22.5 then "N"
    else if 22.5 ≤ d ∧ d < 67.5 then "NE"
    else if 67.5 ≤ d ∧ d < 112.5 then "E"
    else if 112.5 ≤ d ∧ d < 157.5 then "SE"
    else if 157.5 ≤ d ∧ d < 202.5 then "S"
    else if 202.5 ≤ d ∧ d < 247.5 then "SW"
    else if 247.5 ≤ d ∧ d < 292.5 then "W"
    else if 292.5 ≤ d ∧ d < 337.5 then "NW"
    else "N/A"

/-- A cache key of `_cached_nasa_call`: the rounded `(lon, lat)` pair
passed by `fetch_nasa_power_data`. -/
abbrev GeoKey := ℚ × ℚ

/-- One lookup against the `functools.lru_cache(maxsize=32)` state.
First component of the state: cached keys, most recently used first, at
most 32. Second component: the log of network calls performed, each with
its outcome. The event carries the rounded key and whether the network
call, were one performed now, returns a value (`true`) or raises
(`false`: an `urlopen` timeout/error, a JSON error, or the
`ValueError "Bad NASA response"` on a missing or negative annual value).
A hit returns the cached value and moves the key to the front; no call is
made. On a miss the call is performed and logged; `lru_cache` stores a
result only when the call returns, so on success the key is inserted in
front (dropping the least recently used key beyond 32) while on a raising
call the cache is left unchanged and the exception propagates. -/
def lruStep (st : List GeoKey × List (GeoKey × Bool)) (e : GeoKey × Bool) :
    List GeoKey × List (GeoKey × Bool) :=
  if e.1 ∈ st.1 then (e.1 :: st.1.erase e.1, st.2)
  else if e.2 then ((e.1 :: st.1).take 32, st.2 ++ [e])
  else (st.1, st.2 ++ [e])

/-- Run a whole process lifetime of lookups against an initially empty
cache, as the `lru_cache` decorator keeps it for the module lifetime. -/
def lruRun (seq : List (GeoKey × Bool)) : List GeoKey × List (GeoKey × Bool) :=
  seq.foldl lruStep ([], [])

/-- How many network calls (successful or raising) the lifetime `seq` of
lookups performs for the rounded pair `k`. -/
def networkCalls (seq : List (GeoKey × Bool)) (k : GeoKey) : ℕ :=
  ((lruRun seq).2.filter (fun e => e.1 = k)).length

/-- How many of those network calls return a value (and so are cached). -/
def successfulCalls (seq : List (GeoKey × Bool)) (k : GeoKey) : ℕ :=
  ((((lruRun seq).2.filter (fun e => e.2)).map Prod.fst).filter (· = k)).length

/-- Two lookups of the same rounded pair where the first network call
raises: the failed call is not cached, so the second lookup calls again. -/
def lruFailSeq : List (GeoKey × Bool) :=
  [(((0 : ℚ), (0 : ℚ)), false), (((0 : ℚ), (0 : ℚ)), true)]

/-- A lookup sequence touching 33 distinct rounded pairs, every call
succeeding, and then revisiting the first pair; the 33rd distinct pair
evicts the first from the 32-entry cache. -/
def lruEvictSeq : List (GeoKey × Bool) :=
  ((List.range 33).map (fun n => (((n : ℚ), (0 : ℚ)), true))) ++ [(((0 : ℚ), (0 : ℚ)), true)]

noncomputable section

/-- A cell value of an elevation / slope / aspect grid; `none` models the
IEEE NaN used by the source as the no-data sentinel, every arithmetic
function of the source propagates it. -/
abbrev RVal := Option ℝ

/-- Clamp an integer index into `[0, n-1]`: the effect of
`np.pad(dem, pad_width=1, mode='edge')` is that reading the padded array
around a centre cell reads the original array at edge-clamped indices. -/
def pIdx (n : ℕ) (i : ℤ) : ℕ := (max 0 (min i ((n : ℤ) - 1))).toNat

/-- Read the edge-replicated padding of `dem` (shape `H × W`) at offset
`(i, j)` from the original (unpadded) coordinate origin. -/
def pad (dem : ℕ → ℕ → RVal) (H W : ℕ) (i j : ℤ) : RVal :=
  dem (pIdx H i) (pIdx W j)

/-- `dz_dx` of `_calculate_slope_aspect_horn`: the (1,2,1)-weighted right
column minus the left column of the 3×3 neighbourhood, divided by the
literal `8 * 30` of the source. The cell spacing `pixel_width` is
received by the function but does not occur in the expression. -/
def dz_dx (dem : ℕ → ℕ → RVal) (H W : ℕ) (pixel_width : ℝ) (i j : ℕ) : RVal :=
  match pad dem H W ((i : ℤ) - 1) ((j : ℤ) + 1), pad dem H W (i : ℤ) ((j : ℤ) + 1),
      pad dem H W ((i : ℤ) + 1) ((j : ℤ) + 1), pad dem H W ((i : ℤ) - 1) ((j : ℤ) - 1),
      pad dem H W (i : ℤ) ((j : ℤ) - 1), pad dem H W ((i : ℤ) + 1) ((j : ℤ) - 1) with
  | some a, some b, some c, some d, some e, some f =>
      some ((a + 2 * b + c - (d + 2 * e + f)) / (8 * 30))
  | _, _, _, _, _, _ => none

/-- `dz_dy` of `_calculate_slope_aspect_horn`: bottom row minus top row,
divided by the literal `8 * 30`; `pixel_height` is received but unused. -/
def dz_dy (dem : ℕ → ℕ → RVal) (H W : ℕ) (pixel_height : ℝ) (i j : ℕ) : RVal :=
  match pad dem H W ((i : ℤ) + 1) ((j : ℤ) - 1), pad dem H W ((i : ℤ) + 1) (j : ℤ),
      pad dem H W ((i : ℤ) + 1) ((j : ℤ) + 1), pad dem H W ((i : ℤ) - 1) ((j : ℤ) - 1),
      pad dem H W ((i : ℤ) - 1) (j : ℤ), pad dem H W ((i : ℤ) - 1) ((j : ℤ) + 1) with
  | some a, some b, some c, some d, some e, some f =>
      some ((a + 2 * b + c - (d + 2 * e + f)) / (8 * 30))
  | _, _, _, _, _, _ => none

/-- The horizontal gradient as the specification words it: the same
weighted difference divided by `8 × cellSpacing`. -/
def dz_dx_spec (dem : ℕ → ℕ → RVal) (H W : ℕ) (pixel_width : ℝ) (i j : ℕ) : RVal :=
  match pad dem H W ((i : ℤ) - 1) ((j : ℤ) + 1), pad dem H W (i : ℤ) ((j : ℤ) + 1),
      pad dem H W ((i : ℤ) + 1) ((j : ℤ) + 1), pad dem H W ((i : ℤ) - 1) ((j : ℤ) - 1),
      pad dem H W (i : ℤ) ((j : ℤ) - 1), pad dem H W ((i : ℤ) + 1) ((j : ℤ) - 1) with
  | some a, some b, some c, some d, some e, some f =>
      some ((a + 2 * b + c - (d + 2 * e + f)) / (8 * pixel_width))
  | _, _, _, _, _, _ => none

/-- The vertical gradient as the specification words it, divided by
`8 × cellSpacing`. -/
def dz_dy_spec (dem : ℕ → ℕ → RVal) (H W : ℕ) (pixel_height : ℝ) (i j : ℕ) : RVal :=
  match pad dem H W ((i : ℤ) + 1) ((j : ℤ) - 1), pad dem H W ((i : ℤ) + 1) (j : ℤ),
      pad dem H W ((i : ℤ) + 1) ((j : ℤ) + 1), pad dem H W ((i : ℤ) - 1) ((j : ℤ) - 1),
      pad dem H W ((i : ℤ) - 1) (j : ℤ), pad dem H W ((i : ℤ) - 1) ((j : ℤ) + 1) with
  | some a, some b, some c, some d, some e, some f =>
      some ((a + 2 * b + c - (d + 2 * e + f)) / (8 * pixel_height))
  | _, _, _, _, _, _ => none

/-- `np.arctan2 y x` on real (non-NaN) arguments. -/
def arctan2 (y x : ℝ) : ℝ :=
  if 0 < x then Real.arctan (y / x)
  else if x < 0 then
    (if 0 ≤ y then Real.arctan (y / x) + Real.pi else Real.arctan (y / x) - Real.pi)
  else
    (if 0 < y then Real.pi / 2 else if y < 0 then -(Real.pi / 2) else 0)

/-- `slope_deg = np.degrees(np.arctan(np.sqrt(dz_dx**2 + dz_dy**2)))`. -/
def slope_deg (dem : ℕ → ℕ → RVal) (H W : ℕ) (pw ph : ℝ) (i j : ℕ) : RVal :=
  match dz_dx dem H W pw i j, dz_dy dem H W ph i j with
  | some gx, some gy => some (Real.arctan (Real.sqrt (gx ^ 2 + gy ^ 2)) * (180 / Real.pi))
  | _, _ => none

/-- `aspect_deg = np.degrees(np.arctan2(dz_dx, dz_dy))`. -/
def aspect_raw (dem : ℕ → ℕ → RVal) (H W : ℕ) (pw ph : ℝ) (i j : ℕ) : RVal :=
  match dz_dx dem H W pw i j, dz_dy dem H W ph i j with
  | some gx, some gy => some (arctan2 gx gy * (180 / Real.pi))
  | _, _ => none

/-- `aspect_deg[aspect_deg < 0] += 360`: a NaN cell fails the comparison
and is left unchanged. -/
def aspect_norm (dem : ℕ → ℕ → RVal) (H W : ℕ) (pw ph : ℝ) (i j : ℕ) : RVal :=
  match aspect_raw dem H W pw ph i j with
  | some v => if v < 0 then some (v + 360) else some v
  | none => none

/-- `aspect_deg[slope_deg < 1e-6] = -1`: where the slope is a valid value
below `1e-6` the aspect becomes the flat sentinel `-1`; a NaN slope fails
the comparison and leaves the aspect unchanged. -/
def aspect_flat (dem : ℕ → ℕ → RVal) (H W : ℕ) (pw ph : ℝ) (i j : ℕ) : RVal :=
  match slope_deg dem H W pw ph i j with
  | some s => if s < 1 / 1000000 then some (-1) else aspect_norm dem H W pw ph i j
  | none => aspect_norm dem H W pw ph i j

/-- `slope_deg[nan_mask] = np.nan`: cells that are NaN in the input
elevation grid are forced to NaN in the slope output. -/
def slope_out (dem : ℕ → ℕ → RVal) (H W : ℕ) (pw ph : ℝ) (i j : ℕ) : RVal :=
  match dem i j with
  | none => none
  | some _ => slope_deg dem H W pw ph i j

/-- `aspect_deg[nan_mask] = np.nan`. -/
def aspect_out (dem : ℕ → ℕ → RVal) (H W : ℕ) (pw ph : ℝ) (i j : ℕ) : RVal :=
  match dem i j with
  | none => none
  | some _ => aspect_flat dem H W pw ph i j

/-- A 2-D grid with its shape: `rows × cols`, cell values `val i j`. -/
structure RGrid where
  rows : ℕ
  cols : ℕ
  val : ℕ → ℕ → RVal

/-- `_calculate_slope_aspect_horn(dem, pixel_width, pixel_height)`
returning the `(slope_deg, aspect_deg)` pair of grids; every `numpy`
operation involved is shape preserving, so both outputs carry the shape
of the input. -/
def calculate_slope_aspect_horn (dem : RGrid) (pixel_width pixel_height : ℝ) :
    RGrid × RGrid :=
  (⟨dem.rows, dem.cols, slope_out dem.val dem.rows dem.cols pixel_width pixel_height⟩,
   ⟨dem.rows, dem.cols, aspect_out dem.val dem.rows dem.cols pixel_width pixel_height⟩)

/-- A 1×2 elevation grid `[0, 240]`, all cells valid. -/
def demSlope : ℕ → ℕ → RVal := fun _ j => if j = 0 then some 0 else some 240

/-- A 1×2 elevation grid `[0, NaN]`: the left cell is valid, its only
horizontal neighbour is no-data. -/
def demHole : ℕ → ℕ → RVal := fun _ j => if j = 0 then some 0 else none

/-- A 1×1 uniform elevation grid of constant 5. -/
def demFlat : RGrid := ⟨1, 1, fun _ _ => some 5⟩

/-- A 1×1 all-no-data elevation grid. -/
def demNaN : RGrid := ⟨1, 1, fun _ _ => none⟩

end

theorem packLoop_inside (W H w h : ℚ) (maxN : Option ℤ) (hw : 0 ≤ w) (hh : 0 ≤ h) :
    ∀ (fuel : ℕ) (x y : ℚ) (placed : ℕ), 0 ≤ x → 0 ≤ y →
      ∀ q ∈ packLoop W H w h maxN fuel x y placed,
        0 ≤ q.x ∧ 0 ≤ q.y ∧ q.x + q.w ≤ W ∧ q.y + q.h ≤ H := by
  intro fuel
  induction fuel with
  | zero =>
    intro x y placed _ _ q hq
    simp [packLoop] at hq
  | succ n ih =>
    intro x y placed hx hy q hq
    rw [packLoop] at hq
    by_cases hmax : reachedMax maxN placed = true
    · rw [if_pos hmax] at hq
      simp at hq
    · rw [if_neg hmax] at hq
      split_ifs at hq with h1 h2 h3 h4
      · rcases List.mem_cons.mp hq with rfl | hq'
        · exact ⟨hx, hy, h2, h1⟩
        · exact ih (x + w) y (placed + 1) (by linarith) hy q hq'
      · rcases List.mem_cons.mp hq with rfl | hq'
        · exact ⟨le_refl 0, add_nonneg hy hh, h4, h3⟩
        · exact ih (0 + w) (y + h) (placed + 1) (by linarith) (by linarith) q hq'
      · simp at hq
      · simp at hq
      · simp at hq

theorem packLoop_coords (W H w h : ℚ) (maxN : Option ℤ) :
    ∀ (fuel k r placed : ℕ),
      ∀ q ∈ packLoop W H w h maxN fuel ((k : ℚ) * w) ((r : ℚ) * h) placed,
        q.w = w ∧ q.h = h ∧
          ∃ k' r' : ℕ, q.x = (k' : ℚ) * w ∧ q.y = (r' : ℚ) * h ∧
            (r < r' ∨ (r = r' ∧ k ≤ k')) := by
  intro fuel
  induction fuel with
  | zero =>
    intro k r placed q hq
    simp [packLoop] at hq
  | succ n ih =>
    intro k r placed q hq
    rw [packLoop] at hq
    by_cases hmax : reachedMax maxN placed = true
    · rw [if_pos hmax] at hq; simp at hq
    · rw [if_neg hmax] at hq
      split_ifs at hq with h1 h2 h3 h4
      · rcases List.mem_cons.mp hq with rfl | hq'
        · exact ⟨rfl, rfl, k, r, rfl, rfl, Or.inr ⟨rfl, le_rfl⟩⟩
        · rw [show (k : ℚ) * w + w = ((k + 1 : ℕ) : ℚ) * w by push_cast; ring] at hq'
          obtain ⟨hqw, hqh, k', r', hqx, hqy, hord⟩ := ih (k + 1) r (placed + 1) q hq'
          refine ⟨hqw, hqh, k', r', hqx, hqy, ?_⟩
          rcases hord with hlt | ⟨hre, hke⟩
          · exact Or.inl hlt
          · exact Or.inr ⟨hre, by omega⟩
      · rcases List.mem_cons.mp hq with rfl | hq'
        · exact ⟨rfl, rfl, 0, r + 1, by simp, by push_cast; ring, Or.inl (by omega)⟩
        · rw [show (0 : ℚ) + w = ((1 : ℕ) : ℚ) * w by push_cast; ring,
              show (r : ℚ) * h + h = ((r + 1 : ℕ) : ℚ) * h by push_cast; ring] at hq'
          obtain ⟨hqw, hqh, k', r', hqx, hqy, hord⟩ := ih 1 (r + 1) (placed + 1) q hq'
          refine ⟨hqw, hqh, k', r', hqx, hqy, Or.inl ?_⟩
          rcases hord with hlt | ⟨hre, _⟩ <;> omega
      · simp at hq
      · simp at hq
      · simp at hq

theorem packLoop_pairwise (W H w h : ℚ) (maxN : Option ℤ) (hw : 0 < w) (hh : 0 < h) :
    ∀ (fuel k r placed : ℕ),
      List.Pairwise rectDisjoint (packLoop W H w h maxN fuel ((k : ℚ) * w) ((r : ℚ) * h) placed) := by
  intro fuel
  induction fuel with
  | zero =>
    intro k r placed
    simp [packLoop]
  | succ n ih =>
    intro k r placed
    rw [packLoop]
    by_cases hmax : reachedMax maxN placed = true
    · rw [if_pos hmax]; simp
    · rw [if_neg hmax]
      split_ifs with h1 h2 h3 h4
      · rw [List.pairwise_cons]
        constructor
        · intro q hq
          rw [show (k : ℚ) * w + w = ((k + 1 : ℕ) : ℚ) * w by push_cast; ring] at hq
          obtain ⟨hqw, hqh, k', r', hqx, hqy, hord⟩ :=
            packLoop_coords W H w h maxN n (k + 1) r (placed + 1) q hq
          rcases hord with hlt | ⟨hre, hke⟩
          · refine Or.inr (Or.inr (Or.inl ?_))
            rw [hqy]
            have hc : ((r : ℚ) + 1) ≤ (r' : ℚ) := by exact_mod_cast hlt
            have he : ((r : ℚ) + 1) * h ≤ (r' : ℚ) * h :=
              mul_le_mul_of_nonneg_right hc hh.le
            calc (r : ℚ) * h + h = ((r : ℚ) + 1) * h := by ring
              _ ≤ (r' : ℚ) * h := he
          · refine Or.inl ?_
            rw [hqx]
            have hc : ((k : ℚ) + 1) ≤ (k' : ℚ) := by exact_mod_cast hke
            have he : ((k : ℚ) + 1) * w ≤ (k' : ℚ) * w :=
              mul_le_mul_of_nonneg_right hc hw.le
            calc (k : ℚ) * w + w = ((k : ℚ) + 1) * w := by ring
              _ ≤ (k' : ℚ) * w := he
        · rw [show (k : ℚ) * w + w = ((k + 1 : ℕ) : ℚ) * w by push_cast; ring]
          exact ih (k + 1) r (placed + 1)
      · rw [List.pairwise_cons]
        constructor
        · intro q hq
          rw [show (0 : ℚ) + w = ((1 : ℕ) : ℚ) * w by push_cast; ring,
              show (r : ℚ) * h + h = ((r + 1 : ℕ) : ℚ) * h by push_cast; ring] at hq
          obtain ⟨hqw, hqh, k', r', hqx, hqy, hord⟩ :=
            packLoop_coords W H w h maxN n 1 (r + 1) (placed + 1) q hq
          rcases hord with hlt | ⟨hre, hke⟩
          · refine Or.inr (Or.inr (Or.inl ?_))
            rw [hqy]
            have hc : ((r : ℚ) + 2) ≤ (r' : ℚ) := by exact_mod_cast (by omega : r + 2 ≤ r')
            have he : ((r : ℚ) + 2) * h ≤ (r' : ℚ) * h :=
              mul_le_mul_of_nonneg_right hc hh.le
            calc (r : ℚ) * h + h + h = ((r : ℚ) + 2) * h := by ring
              _ ≤ (r' : ℚ) * h := he
          · refine Or.inl ?_
            rw [hqx]
            have hc : (1 : ℚ) ≤ (k' : ℚ) := by exact_mod_cast hke
            have he : (1 : ℚ) * w ≤ (k' : ℚ) * w :=
              mul_le_mul_of_nonneg_right hc hw.le
            calc (0 : ℚ) + w = (1 : ℚ) * w := by ring
              _ ≤ (k' : ℚ) * w := he
        · rw [show (0 : ℚ) + w = ((1 : ℕ) : ℚ) * w by push_cast; ring,
              show (r : ℚ) * h + h = ((r + 1 : ℕ) : ℚ) * h by push_cast; ring]
          exact ih 1 (r + 1) (placed + 1)
      · exact List.Pairwise.nil
      · exact List.Pairwise.nil
      · exact List.Pairwise.nil

theorem succ_le_floor_toNat_iff (q : ℚ) (k : ℕ) :
    k + 1 ≤ (⌊q⌋).toNat ↔ ((k : ℚ) + 1) ≤ q := by
  constructor
  · intro hle
    have h1 : ((k : ℤ) + 1) ≤ ⌊q⌋ := by omega
    have h2 := Int.le_floor.mp h1
    push_cast at h2
    exact h2
  · intro hq
    have h1 : ((k : ℤ) + 1) ≤ ⌊q⌋ := Int.le_floor.mpr (by push_cast; exact hq)
    omega

theorem place_cond_iff (W w : ℚ) (hw : 0 < w) (k : ℕ) :
    (k : ℚ) * w + w ≤ W ↔ k + 1 ≤ shelfCols W w := by
  unfold shelfCols
  rw [succ_le_floor_toNat_iff, le_div_iff₀ hw]
  constructor <;> intro hc <;> nlinarith

theorem shelf_cond_iff (H h : ℚ) (hh : 0 < h) (r : ℕ) :
    (r : ℚ) * h + h ≤ H ↔ r + 1 ≤ shelfRows H h :=
  place_cond_iff H h hh r

theorem packLoop_length_formula (W H w h : ℚ) (hw : 0 < w) (hh : 0 < h) (hwW : w ≤ W)
    (N : ℕ) :
    ∀ (fuel k r placed : ℕ), k ≤ shelfCols W w → r ≤ shelfRows H h →
      (packLoop W H w h (some (N : ℤ)) fuel ((k : ℚ) * w) ((r : ℚ) * h) placed).length =
        min (N - placed) (min (shelfCols W w * (shelfRows H h - r) - k) fuel) := by
  intro fuel
  induction fuel with
  | zero =>
    intro k r placed hk hr
    simp [packLoop]
  | succ n ih =>
    intro k r placed hk hr
    rw [packLoop]
    by_cases hmax : reachedMax (some (N : ℤ)) placed = true
    · have hNp : N ≤ placed := by
        simp only [reachedMax, decide_eq_true_eq] at hmax
        exact_mod_cast hmax
      rw [if_pos hmax]
      simp only [List.length_nil]
      omega
    · have hNp : placed < N := by
        simp only [reachedMax, decide_eq_true_eq] at hmax
        omega
      rw [if_neg hmax]
      by_cases hshelf : (r : ℚ) * h + h ≤ H
      · have hr1 : r + 1 ≤ shelfRows H h := (shelf_cond_iff H h hh r).mp hshelf
        rw [if_pos hshelf]
        by_cases hx : (k : ℚ) * w + w ≤ W
        · have hk1 : k + 1 ≤ shelfCols W w := (place_cond_iff W w hw k).mp hx
          rw [if_pos hx, List.length_cons]
          rw [show (k : ℚ) * w + w = ((k + 1 : ℕ) : ℚ) * w by push_cast; ring]
          rw [ih (k + 1) r (placed + 1) hk1 hr]
          have hcap : shelfCols W w * 1 ≤ shelfCols W w * (shelfRows H h - r) :=
            Nat.mul_le_mul_left _ (by omega)
          rw [Nat.mul_one] at hcap
          omega
        · have hk1 : ¬(k + 1 ≤ shelfCols W w) := fun hc => hx ((place_cond_iff W w hw k).mpr hc)
          rw [if_neg hx]
          by_cases hshelf2 : (r : ℚ) * h + h + h ≤ H
          · have hr2 : r + 2 ≤ shelfRows H h := by
              have hs : ((r + 1 : ℕ) : ℚ) * h + h ≤ H := by push_cast; nlinarith
              have := (shelf_cond_iff H h hh (r + 1)).mp hs
              omega
            rw [if_pos hshelf2]
            have hcols1 : 1 ≤ shelfCols W w := by
              have h0 : ((0 : ℕ) : ℚ) * w + w ≤ W := by push_cast; linarith
              have := (place_cond_iff W w hw 0).mp h0
              omega
            have hxw : (0 : ℚ) + w ≤ W := by linarith
            rw [if_pos hxw, List.length_cons]
            rw [show (0 : ℚ) + w = ((1 : ℕ) : ℚ) * w by push_cast; ring,
                show (r : ℚ) * h + h = ((r + 1 : ℕ) : ℚ) * h by push_cast; ring]
            rw [ih 1 (r + 1) (placed + 1) hcols1 (by omega)]
            have hkeq : k = shelfCols W w := by omega
            obtain ⟨s, hs1, hs2⟩ :
                ∃ s, shelfRows H h - r = s + 1 ∧ shelfRows H h - (r + 1) = s :=
              ⟨shelfRows H h - (r + 1), by omega, rfl⟩
            rw [hs1, hs2, Nat.mul_succ]
            have hs3 : 1 ≤ s := by omega
            have hA1 : shelfCols W w * 1 ≤ shelfCols W w * s :=
              Nat.mul_le_mul_left _ hs3
            rw [Nat.mul_one] at hA1
            omega
          · rw [if_neg hshelf2]
            have hr2 : ¬(r + 2 ≤ shelfRows H h) := by
              intro hc
              apply hshelf2
              have hs := (shelf_cond_iff H h hh (r + 1)).mpr (by omega)
              push_cast at hs
              nlinarith
            simp only [List.length_nil]
            have hkeq : k = shelfCols W w := by omega
            have hrow1 : shelfRows H h - r = 1 := by omega
            rw [hrow1, Nat.mul_one]
            omega
      · rw [if_neg hshelf]
        have hr1 : ¬(r + 1 ≤ shelfRows H h) := fun hc => hshelf ((shelf_cond_iff H h hh r).mpr hc)
        simp only [List.length_nil]
        have hrow0 : shelfRows H h - r = 0 := by omega
        rw [hrow0, Nat.mul_zero]
        omega

theorem next_fit_length_formula (W H w h : ℚ) (N : ℕ) (hw : 0 < w) (hwW : w ≤ W)
    (hh : 0 < h) (hhH : h ≤ H) :
    (next_fit_shelf_packing W H w h (some (N : ℤ))).length =
      min N (min (shelfCols W w * shelfRows H h) 1000000) := by
  unfold next_fit_shelf_packing
  rw [if_neg (by push_neg; constructor <;> linarith),
      if_neg (by push_neg; constructor <;> linarith)]
  have key := packLoop_length_formula W H w h hw hh hwW N 1000000 0 0 0
    (Nat.zero_le _) (Nat.zero_le _)
  simpa using key

/-- C2: every rectangle `{x, y, w, h}` returned by
`next_fit_shelf_packing` for a plot `(W, H)` lies fully inside the plot:
`0 ≤ x`, `0 ≤ y`, `x + w ≤ W` and `y + h ≤ H`. -/
theorem C2_packing_inside_plot (W H w h : ℚ) (maxN : Option ℤ) :
    ∀ q ∈ next_fit_shelf_packing W H w h maxN,
      0 ≤ q.x ∧ 0 ≤ q.y ∧ q.x + q.w ≤ W ∧ q.y + q.h ≤ H := by
  intro q hq
  unfold next_fit_shelf_packing at hq
  split_ifs at hq with hdeg hbig
  · simp at hq
  · simp at hq
  · push_neg at hdeg
    exact packLoop_inside W H w h maxN hdeg.1.le hdeg.2.le 1000000 0 0 0
      le_rfl le_rfl q hq

/-- Witness for C2 at plot `2 × 2`, item `1 × 1`: the first placed
rectangle is inside the plot. -/
theorem C2_packing_inside_plot_witness :
    0 ≤ (Rect.mk 0 0 1 1).x ∧ 0 ≤ (Rect.mk 0 0 1 1).y ∧
      (Rect.mk 0 0 1 1).x + (Rect.mk 0 0 1 1).w ≤ 2 ∧
      (Rect.mk 0 0 1 1).y + (Rect.mk 0 0 1 1).h ≤ 2 :=
  C2_packing_inside_plot 2 2 1 1 none ⟨0, 0, 1, 1⟩ (by
    unfold next_fit_shelf_packing
    norm_num
    rw [packLoop]
    norm_num [reachedMax])

/-- C10: the rectangles returned by `next_fit_shelf_packing` are pairwise
separated on an axis — items of one shelf occupy disjoint x-intervals,
distinct shelves occupy disjoint y-intervals — so any two distinct placed
items have disjoint interiors. -/
theorem C10_packing_pairwise_disjoint (W H w h : ℚ) (maxN : Option ℤ) :
    List.Pairwise rectDisjoint (next_fit_shelf_packing W H w h maxN) := by
  unfold next_fit_shelf_packing
  split_ifs with hdeg hbig
  · exact List.Pairwise.nil
  · exact List.Pairwise.nil
  · push_neg at hdeg
    have key := packLoop_pairwise W H w h maxN hdeg.1 hdeg.2 1000000 0 0 0
    simpa using key

/-- C6 (amended): with `0 < w ≤ W`, `0 < h ≤ H` and a positive maximum
count `N`, the packer places at most `N` items, and places exactly `N`
whenever both `N ≤ ⌊W/w⌋ * ⌊H/h⌋` (the plot has capacity for `N`) and
`N ≤ 1_000_000` (the hard iteration ceiling of the loop). -/
theorem C6_packing_max_count (W H w h : ℚ) (N : ℕ) (hw : 0 < w) (hwW : w ≤ W)
    (hh : 0 < h) (hhH : h ≤ H) (hN : 0 < N) :
    (next_fit_shelf_packing W H w h (some (N : ℤ))).length ≤ N ∧
      (N ≤ shelfCols W w * shelfRows H h → N ≤ 1000000 →
        (next_fit_shelf_packing W H w h (some (N : ℤ))).length = N) := by
  have key := next_fit_length_formula W H w h N hw hwW hh hhH
  constructor
  · rw [key]; omega
  · intro h1 h2; rw [key]; omega

/-- Witness for C6 at plot `2 × 2`, item `1 × 1`, maximum count 3:
exactly 3 items are placed. -/
theorem C6_packing_max_count_witness :
    (next_fit_shelf_packing 2 2 1 1 (some ((3 : ℕ) : ℤ))).length = 3 :=
  (C6_packing_max_count 2 2 1 1 3 (by norm_num) (by norm_num) (by norm_num)
      (by norm_num) (by norm_num)).2
    (by norm_num [shelfCols, shelfRows]; decide) (by norm_num)

/-- Counterexample to C6 as stated: plot `1 × 1`, item `1/2000 × 1/1000`,
maximum count `N = 1_000_001`. The plot has capacity `2000 * 1000 ≥ N`,
yet the loop stops at its `1_000_000`-iteration ceiling having placed only
`1_000_000 ≠ N` items. -/
theorem C6_packing_max_count_counterexample :
    (0 : ℚ) < 1 / 2000 ∧ (1 : ℚ) / 2000 ≤ 1 ∧ (0 : ℚ) < 1 / 1000 ∧ (1 : ℚ) / 1000 ≤ 1 ∧
      0 < 1000001 ∧
      1000001 ≤ shelfCols 1 (1 / 2000) * shelfRows 1 (1 / 1000) ∧
      (next_fit_shelf_packing 1 1 (1 / 2000) (1 / 1000)
          (some ((1000001 : ℕ) : ℤ))).length ≠ 1000001 := by
  have hcols : shelfCols 1 (1 / 2000) = 2000 := by
    norm_num [shelfCols]
    decide
  have hrows : shelfRows 1 (1 / 1000) = 1000 := by
    norm_num [shelfRows]
    decide
  have key := next_fit_length_formula 1 1 (1 / 2000) (1 / 1000) 1000001
    (by norm_num) (by norm_num) (by norm_num) (by norm_num)
  rw [hcols, hrows] at key
  refine ⟨by norm_num, by norm_num, by norm_num, by norm_num, by norm_num, ?_, ?_⟩
  · rw [hcols, hrows]; norm_num
  · rw [key]; norm_num

/-- C8: the aspect-direction classifier maps 0° to "N", 90° to "E",
180° to "S", 270° to "W", the flat sentinel −1 to the distinct "Flat"
label and a not-a-number input to the distinct "N/A" label; and each of
the 8 compass labels covers its 45°-wide bin centred on its direction
(for north the bin wraps: `[0°, 22.5°) ∪ [337.5°, 360°)`). -/
theorem C8_aspect_direction (d : ℚ) :
    get_aspect_direction (some 0) = "N" ∧
    get_aspect_direction (some 90) = "E" ∧
    get_aspect_direction (some 180) = "S" ∧
    get_aspect_direction (some 270) = "W" ∧
    get_aspect_direction (some (-1)) = "Flat" ∧
    get_aspect_direction none = "N/A" ∧
    (0 ≤ d → d < 22.5 → get_aspect_direction (some d) = "N") ∧
    (337.5 ≤ d → d < 360 → get_aspect_direction (some d) = "N") ∧
    (22.5 ≤ d → d < 67.5 → get_aspect_direction (some d) = "NE") ∧
    (67.5 ≤ d → d < 112.5 → get_aspect_direction (some d) = "E") ∧
    (112.5 ≤ d → d < 157.5 → get_aspect_direction (some d) = "SE") ∧
    (157.5 ≤ d → d < 202.5 → get_aspect_direction (some d) = "S") ∧
    (202.5 ≤ d → d < 247.5 → get_aspect_direction (some d) = "SW") ∧
    (247.5 ≤ d → d < 292.5 → get_aspect_direction (some d) = "W") ∧
    (292.5 ≤ d → d < 337.5 → get_aspect_direction (some d) = "NW") := by
  refine ⟨by norm_num [get_aspect_direction], by norm_num [get_aspect_direction],
    by norm_num [get_aspect_direction], by norm_num [get_aspect_direction],
    by norm_num [get_aspect_direction], by norm_num [get_aspect_direction],
    ?_, ?_, ?_, ?_, ?_, ?_, ?_, ?_, ?_⟩ <;> intro hlo hhi <;>
    simp only [get_aspect_direction]
  · rw [if_neg (by linarith : ¬ d < 0), if_pos (Or.inr hhi)]
  · rw [if_neg (by linarith : ¬ d < 0), if_pos (Or.inl hlo)]
  · rw [if_neg (by linarith : ¬ d < 0),
        if_neg (by rintro (hc | hc) <;> linarith : ¬ (337.5 ≤ d ∨ d < 22.5)),
        if_pos (⟨hlo, hhi⟩ : 22.5 ≤ d ∧ d < 67.5)]
  · rw [if_neg (by linarith : ¬ d < 0),
        if_neg (by rintro (hc | hc) <;> linarith : ¬ (337.5 ≤ d ∨ d < 22.5)),
        if_neg (by rintro ⟨hc1, hc2⟩; linarith : ¬ (22.5 ≤ d ∧ d < 67.5)),
        if_pos (⟨hlo, hhi⟩ : 67.5 ≤ d ∧ d < 112.5)]
  · rw [if_neg (by linarith : ¬ d < 0),
        if_neg (by rintro (hc | hc) <;> linarith : ¬ (337.5 ≤ d ∨ d < 22.5)),
        if_neg (by rintro ⟨hc1, hc2⟩; linarith : ¬ (22.5 ≤ d ∧ d < 67.5)),
        if_neg (by rintro ⟨hc1, hc2⟩; linarith : ¬ (67.5 ≤ d ∧ d < 112.5)),
        if_pos (⟨hlo, hhi⟩ : 112.5 ≤ d ∧ d < 157.5)]
  · rw [if_neg (by linarith : ¬ d < 0),
        if_neg (by rintro (hc | hc) <;> linarith : ¬ (337.5 ≤ d ∨ d < 22.5)),
        if_neg (by rintro ⟨hc1, hc2⟩; linarith : ¬ (22.5 ≤ d ∧ d < 67.5)),
        if_neg (by rintro ⟨hc1, hc2⟩; linarith : ¬ (67.5 ≤ d ∧ d < 112.5)),
        if_neg (by rintro ⟨hc1, hc2⟩; linarith : ¬ (112.5 ≤ d ∧ d < 157.5)),
        if_pos (⟨hlo, hhi⟩ : 157.5 ≤ d ∧ d < 202.5)]
  · rw [if_neg (by linarith : ¬ d < 0),
        if_neg (by rintro (hc | hc) <;> linarith : ¬ (337.5 ≤ d ∨ d < 22.5)),
        if_neg (by rintro ⟨hc1, hc2⟩; linarith : ¬ (22.5 ≤ d ∧ d < 67.5)),
        if_neg (by rintro ⟨hc1, hc2⟩; linarith : ¬ (67.5 ≤ d ∧ d < 112.5)),
        if_neg (by rintro ⟨hc1, hc2⟩; linarith : ¬ (112.5 ≤ d ∧ d < 157.5)),
        if_neg (by rintro ⟨hc1, hc2⟩; linarith : ¬ (157.5 ≤ d ∧ d < 202.5)),
        if_pos (⟨hlo, hhi⟩ : 202.5 ≤ d ∧ d < 247.5)]
  · rw [if_neg (by linarith : ¬ d < 0),
        if_neg (by rintro (hc | hc) <;> linarith : ¬ (337.5 ≤ d ∨ d < 22.5)),
        if_neg (by rintro ⟨hc1, hc2⟩; linarith : ¬ (22.5 ≤ d ∧ d < 67.5)),
        if_neg (by rintro ⟨hc1, hc2⟩; linarith : ¬ (67.5 ≤ d ∧ d < 112.5)),
        if_neg (by rintro ⟨hc1, hc2⟩; linarith : ¬ (112.5 ≤ d ∧ d < 157.5)),
        if_neg (by rintro ⟨hc1, hc2⟩; linarith : ¬ (157.5 ≤ d ∧ d < 202.5)),
        if_neg (by rintro ⟨hc1, hc2⟩; linarith : ¬ (202.5 ≤ d ∧ d < 247.5)),
        if_pos (⟨hlo, hhi⟩ : 247.5 ≤ d ∧ d < 292.5)]
  · rw [if_neg (by linarith : ¬ d < 0),
        if_neg (by rintro (hc | hc) <;> linarith : ¬ (337.5 ≤ d ∨ d < 22.5)),
        if_neg (by rintro ⟨hc1, hc2⟩; linarith : ¬ (22.5 ≤ d ∧ d < 67.5)),
        if_neg (by rintro ⟨hc1, hc2⟩; linarith : ¬ (67.5 ≤ d ∧ d < 112.5)),
        if_neg (by rintro ⟨hc1, hc2⟩; linarith : ¬ (112.5 ≤ d ∧ d < 157.5)),
        if_neg (by rintro ⟨hc1, hc2⟩; linarith : ¬ (157.5 ≤ d ∧ d < 202.5)),
        if_neg (by rintro ⟨hc1, hc2⟩; linarith : ¬ (202.5 ≤ d ∧ d < 247.5)),
        if_neg (by rintro ⟨hc1, hc2⟩; linarith : ¬ (247.5 ≤ d ∧ d < 292.5)),
        if_pos (⟨hlo, hhi⟩ : 292.5 ≤ d ∧ d < 337.5)]

/-- Witness for C8: the bin implications applied at 10° give "N". -/
theorem C8_aspect_direction_witness :
    get_aspect_direction (some 10) = "N" :=
  (C8_aspect_direction 10).2.2.2.2.2.2.1 (by norm_num) (by norm_num)

theorem lruRun_success_nodup :
    ∀ (rest p : List (GeoKey × Bool)) (cache : List GeoKey) (log : List (GeoKey × Bool)),
      cache.Nodup →
      (∀ k, k ∈ cache → k ∈ p.map Prod.fst) →
      (∀ k, k ∈ cache ↔ (k, true) ∈ log) →
      ((log.filter (fun e => e.2)).map Prod.fst).Nodup →
      (((p ++ rest).map Prod.fst).dedup.length ≤ 32) →
      (((rest.foldl lruStep (cache, log)).2.filter (fun e => e.2)).map Prod.fst).Nodup := by
  intro rest
  induction rest with
  | nil =>
    intro p cache log _ _ _ h4 _
    simpa using h4
  | cons e rest ih =>
    obtain ⟨k0, b⟩ := e
    intro p cache log h1 h2 h3 h4 hbound
    have hbound' : (((p ++ [(k0, b)]) ++ rest).map Prod.fst).dedup.length ≤ 32 := by
      rw [List.append_assoc]
      simpa using hbound
    rw [List.foldl_cons]
    by_cases hk : k0 ∈ cache
    · rw [show lruStep (cache, log) (k0, b) = (k0 :: cache.erase k0, log) from by
        simp [lruStep, hk]]
      apply ih (p ++ [(k0, b)]) (k0 :: cache.erase k0) log ?_ ?_ ?_ h4 hbound'
      · exact List.nodup_cons.mpr ⟨h1.not_mem_erase, h1.erase k0⟩
      · intro k hkmem
        have hkc : k ∈ cache := by
          rcases List.mem_cons.mp hkmem with rfl | hm
          · exact hk
          · exact List.mem_of_mem_erase hm
        have := h2 k hkc
        simp only [List.map_append, List.mem_append]
        exact Or.inl this
      · intro k
        rw [← h3 k]
        constructor
        · intro hm
          rcases List.mem_cons.mp hm with rfl | hm'
          · exact hk
          · exact List.mem_of_mem_erase hm'
        · intro hm
          by_cases hkk : k = k0
          · exact hkk ▸ List.mem_cons_self _ _
          · exact List.mem_cons_of_mem _ ((List.mem_erase_of_ne hkk).mpr hm)
    · by_cases hb : b = true
      · subst hb
        rw [show lruStep (cache, log) (k0, true) = ((k0 :: cache).take 32, log ++ [(k0, true)]) from by
          simp [lruStep, hk]]
        have hnodup' : (k0 :: cache).Nodup := List.nodup_cons.mpr ⟨hk, h1⟩
        have hsub : (k0 :: cache).toFinset ⊆ ((p ++ (k0, true) :: rest).map Prod.fst).toFinset := by
          intro x hx
          rcases List.mem_cons.mp (List.mem_toFinset.mp hx) with rfl | hx'
          · exact List.mem_toFinset.mpr (by simp)
          · have hxp := h2 x hx'
            refine List.mem_toFinset.mpr ?_
            simp only [List.map_append, List.mem_append]
            exact Or.inl hxp
        have hlen : (k0 :: cache).length ≤ 32 := by
          calc (k0 :: cache).length = (k0 :: cache).toFinset.card :=
                (List.toFinset_card_of_nodup hnodup').symm
            _ ≤ ((p ++ (k0, true) :: rest).map Prod.fst).toFinset.card :=
                Finset.card_le_card hsub
            _ = ((p ++ (k0, true) :: rest).map Prod.fst).dedup.length := List.card_toFinset _
            _ ≤ 32 := hbound
        rw [List.take_of_length_le hlen]
        have hk0notin : k0 ∉ (log.filter (fun e => e.2)).map Prod.fst := by
          intro hmem
          obtain ⟨e', he'mem, he'fst⟩ := List.mem_map.mp hmem
          have he'filter := List.mem_filter.mp he'mem
          obtain ⟨a, c⟩ := e'
          have hc : c = true := by simpa using he'filter.2
          have ha : a = k0 := he'fst
          have hmem' : (k0, true) ∈ log := by
            rw [← ha, ← hc]
            exact he'filter.1
          exact hk ((h3 k0).mpr hmem')
        apply ih (p ++ [(k0, true)]) (k0 :: cache) (log ++ [(k0, true)]) hnodup' ?_ ?_ ?_ hbound'
        · intro k hkm
          simp only [List.map_append, List.mem_append]
          rcases List.mem_cons.mp hkm with rfl | hm
          · exact Or.inr (by simp)
          · exact Or.inl (h2 k hm)
        · intro k
          simp only [List.mem_cons, List.mem_append, List.mem_singleton, Prod.mk.injEq,
            and_true]
          rw [← h3 k]
          tauto
        · rw [List.filter_append, List.map_append]
          have hsing : ([(k0, true)].filter (fun e => e.2)) = [(k0, true)] := by simp
          rw [hsing]
          refine List.nodup_append.mpr ⟨h4, by simp, ?_⟩
          intro x hx hx'
          simp only [List.map_cons, List.map_nil, List.mem_singleton] at hx'
          subst hx'
          exact hk0notin hx
      · have hbf : b = false := by simpa using hb
        subst hbf
        rw [show lruStep (cache, log) (k0, false) = (cache, log ++ [(k0, false)]) from by
          simp [lruStep, hk]]
        apply ih (p ++ [(k0, false)]) cache (log ++ [(k0, false)]) h1 ?_ ?_ ?_ hbound'
        · intro k hm
          simp only [List.map_append, List.mem_append]
          exact Or.inl (h2 k hm)
        · intro k
          rw [h3 k]
          simp
        · rw [List.filter_append]
          have hsing : ([(k0, false)].filter (fun e => e.2)) = [] := by simp
          rw [hsing]
          simpa using h4

theorem length_le_one_of_nodup_const {l : List GeoKey} (hn : l.Nodup) (k : GeoKey)
    (hall : ∀ x ∈ l, x = k) : l.length ≤ 1 := by
  match l, hn with
  | [], _ => simp
  | [a], _ => simp
  | a :: b :: t, hn =>
    exfalso
    have ha := hall a (by simp)
    have hb := hall b (by simp)
    rw [List.nodup_cons] at hn
    exact hn.1 (by simp [ha, hb])

/-- C9 (amended): over the lifetime of the process, each distinct rounded
`(lon, lat)` pair incurs at most one SUCCESSFUL network call, provided at
most 32 distinct pairs are looked up in total (the `maxsize` of the
`lru_cache`). Neither proviso can be dropped: a call that raises (timeout
or "Bad NASA response") is not cached, so a later lookup of the same pair
calls the network again; and a 33rd distinct pair evicts the least
recently used entry, whose next lookup also calls again. -/
theorem C9_cache_at_most_one_successful_call (seq : List (GeoKey × Bool)) (k : GeoKey)
    (hdistinct : (seq.map Prod.fst).dedup.length ≤ 32) :
    successfulCalls seq k ≤ 1 := by
  have h4 : (((lruRun seq).2.filter (fun e => e.2)).map Prod.fst).Nodup := by
    have key := lruRun_success_nodup seq [] [] [] List.nodup_nil
      (by simp) (by simp) (by simp) (by simpa using hdistinct)
    simpa [lruRun] using key
  refine length_le_one_of_nodup_const (h4.filter _) k ?_
  intro x hx
  simpa using (List.mem_filter.mp hx).2

/-- Witness for C9 (amended): two lookups of the same pair with one other
pair interleaved, all calls succeeding, make one successful call for it. -/
theorem C9_cache_at_most_one_successful_call_witness :
    successfulCalls [(((1 : ℚ), (2 : ℚ)), true), (((3 : ℚ), (4 : ℚ)), true),
      (((1 : ℚ), (2 : ℚ)), true)] ((1 : ℚ), (2 : ℚ)) ≤ 1 :=
  C9_cache_at_most_one_successful_call _ _ (by decide)

/-- Counterexample to C9 as stated: a single rounded pair is looked up
twice, the first network call raises (`lru_cache` caches nothing then),
so the second lookup performs a second network call for the same pair —
two calls for one distinct pair over the process lifetime. -/
theorem C9_cache_counterexample :
    ¬ (networkCalls lruFailSeq ((0 : ℚ), (0 : ℚ)) ≤ 1) := by decide

set_option maxRecDepth 100000 in
/-- Even with every call succeeding, the 32-entry bound still breaks the
claimed call-once property: 33 distinct pairs followed by the first again
perform two network calls for the first pair (LRU eviction). -/
theorem networkCalls_eviction_repeat :
    ¬ (networkCalls lruEvictSeq ((0 : ℚ), (0 : ℚ)) ≤ 1) := by decide

theorem dz_dx_eq_none_iff (dem : ℕ → ℕ → RVal) (H W : ℕ) (pw : ℝ) (i j : ℕ) :
    dz_dx dem H W pw i j = none ↔
      pad dem H W ((i : ℤ) - 1) ((j : ℤ) + 1) = none ∨
      pad dem H W (i : ℤ) ((j : ℤ) + 1) = none ∨
      pad dem H W ((i : ℤ) + 1) ((j : ℤ) + 1) = none ∨
      pad dem H W ((i : ℤ) - 1) ((j : ℤ) - 1) = none ∨
      pad dem H W (i : ℤ) ((j : ℤ) - 1) = none ∨
      pad dem H W ((i : ℤ) + 1) ((j : ℤ) - 1) = none := by
  cases h1 : pad dem H W ((i : ℤ) - 1) ((j : ℤ) + 1) <;>
    cases h2 : pad dem H W (i : ℤ) ((j : ℤ) + 1) <;>
    cases h3 : pad dem H W ((i : ℤ) + 1) ((j : ℤ) + 1) <;>
    cases h4 : pad dem H W ((i : ℤ) - 1) ((j : ℤ) - 1) <;>
    cases h5 : pad dem H W (i : ℤ) ((j : ℤ) - 1) <;>
    cases h6 : pad dem H W ((i : ℤ) + 1) ((j : ℤ) - 1) <;>
    simp [dz_dx, h1, h2, h3, h4, h5, h6]

theorem dz_dy_eq_none_iff (dem : ℕ → ℕ → RVal) (H W : ℕ) (ph : ℝ) (i j : ℕ) :
    dz_dy dem H W ph i j = none ↔
      pad dem H W ((i : ℤ) + 1) ((j : ℤ) - 1) = none ∨
      pad dem H W ((i : ℤ) + 1) (j : ℤ) = none ∨
      pad dem H W ((i : ℤ) + 1) ((j : ℤ) + 1) = none ∨
      pad dem H W ((i : ℤ) - 1) ((j : ℤ) - 1) = none ∨
      pad dem H W ((i : ℤ) - 1) (j : ℤ) = none ∨
      pad dem H W ((i : ℤ) - 1) ((j : ℤ) + 1) = none := by
  cases h1 : pad dem H W ((i : ℤ) + 1) ((j : ℤ) - 1) <;>
    cases h2 : pad dem H W ((i : ℤ) + 1) (j : ℤ) <;>
    cases h3 : pad dem H W ((i : ℤ) + 1) ((j : ℤ) + 1) <;>
    cases h4 : pad dem H W ((i : ℤ) - 1) ((j : ℤ) - 1) <;>
    cases h5 : pad dem H W ((i : ℤ) - 1) (j : ℤ) <;>
    cases h6 : pad dem H W ((i : ℤ) - 1) ((j : ℤ) + 1) <;>
    simp [dz_dy, h1, h2, h3, h4, h5, h6]

theorem slope_deg_eq_none_iff (dem : ℕ → ℕ → RVal) (H W : ℕ) (pw ph : ℝ) (i j : ℕ) :
    slope_deg dem H W pw ph i j = none ↔
      dz_dx dem H W pw i j = none ∨ dz_dy dem H W ph i j = none := by
  cases h1 : dz_dx dem H W pw i j <;> cases h2 : dz_dy dem H W ph i j <;>
    simp [slope_deg, h1, h2]

theorem aspect_flat_eq_none_iff (dem : ℕ → ℕ → RVal) (H W : ℕ) (pw ph : ℝ) (i j : ℕ) :
    aspect_flat dem H W pw ph i j = none ↔
      dz_dx dem H W pw i j = none ∨ dz_dy dem H W ph i j = none := by
  cases h1 : dz_dx dem H W pw i j <;> cases h2 : dz_dy dem H W ph i j <;>
    · simp only [aspect_flat, aspect_norm, aspect_raw, slope_deg, h1, h2]
      first
      | (split_ifs <;> simp)
      | simp

theorem slope_out_eq_none_iff (dem : ℕ → ℕ → RVal) (H W : ℕ) (pw ph : ℝ) (i j : ℕ) :
    slope_out dem H W pw ph i j = none ↔
      dem i j = none ∨ dz_dx dem H W pw i j = none ∨ dz_dy dem H W ph i j = none := by
  cases hd : dem i j
  · simp [slope_out, hd]
  · simp only [slope_out, hd]
    rw [slope_deg_eq_none_iff]
    simp

theorem aspect_out_eq_none_iff (dem : ℕ → ℕ → RVal) (H W : ℕ) (pw ph : ℝ) (i j : ℕ) :
    aspect_out dem H W pw ph i j = none ↔
      dem i j = none ∨ dz_dx dem H W pw i j = none ∨ dz_dy dem H W ph i j = none := by
  cases hd : dem i j
  · simp [aspect_out, hd]
  · simp only [aspect_out, hd]
    rw [aspect_flat_eq_none_iff]
    simp

/-- C1 (amended): the terrain derivative engine computes both gradients
as the (1,2,1)-weighted differences divided by the fixed constant
`8 × 30`, ignoring the caller-supplied cell spacing entirely: for every
spacing the gradients equal the spec formula instantiated at spacing 30,
and changing the spacing does not change the computed gradients. -/
theorem C1_gradient_fixed_divisor (dem : ℕ → ℕ → RVal) (H W : ℕ)
    (pixel_width pixel_height pw' ph' : ℝ) (i j : ℕ) :
    dz_dx dem H W pixel_width i j = dz_dx_spec dem H W 30 i j ∧
    dz_dy dem H W pixel_height i j = dz_dy_spec dem H W 30 i j ∧
    dz_dx dem H W pixel_width i j = dz_dx dem H W pw' i j ∧
    dz_dy dem H W pixel_height i j = dz_dy dem H W ph' i j :=
  ⟨rfl, rfl, rfl, rfl⟩

/-- Counterexample to C1 as stated: on the 1×2 grid `[0, 240]` with
cell spacing 60, the code computes `dz/dx = 960 / 240 = 4`, while the
claimed formula (weighted difference divided by `8 × dx = 480`) gives 2. -/
theorem C1_gradient_counterexample :
    dz_dx demSlope 1 2 60 0 0 ≠ dz_dx_spec demSlope 1 2 60 0 0 := by
  have h1 : dz_dx demSlope 1 2 60 0 0 =
      some ((240 + 2 * 240 + 240 - (0 + 2 * 0 + 0)) / (8 * 30)) := rfl
  have h2 : dz_dx_spec demSlope 1 2 60 0 0 =
      some ((240 + 2 * 240 + 240 - (0 + 2 * 0 + 0)) / (8 * 60)) := rfl
  rw [h1, h2]
  intro hc
  simp only [Option.some.injEq] at hc
  norm_num at hc

/-- C3 (amended): a cell of the slope grid (equivalently the aspect grid)
is not-a-number exactly when the corresponding input cell or any cell of
its edge-replicated 3×3 neighbourhood is not-a-number. In particular a
valid input cell adjacent to a no-data cell becomes no-data in the
outputs, so the claimed cell-for-cell iff fails. -/
theorem C3_nodata_neighbourhood (dem : ℕ → ℕ → RVal) (H W : ℕ) (pw ph : ℝ) (i j : ℕ) :
    (slope_out dem H W pw ph i j = none ↔
      (dem i j = none ∨
        pad dem H W ((i : ℤ) - 1) ((j : ℤ) - 1) = none ∨
        pad dem H W ((i : ℤ) - 1) (j : ℤ) = none ∨
        pad dem H W ((i : ℤ) - 1) ((j : ℤ) + 1) = none ∨
        pad dem H W (i : ℤ) ((j : ℤ) - 1) = none ∨
        pad dem H W (i : ℤ) ((j : ℤ) + 1) = none ∨
        pad dem H W ((i : ℤ) + 1) ((j : ℤ) - 1) = none ∨
        pad dem H W ((i : ℤ) + 1) (j : ℤ) = none ∨
        pad dem H W ((i : ℤ) + 1) ((j : ℤ) + 1) = none)) ∧
    (aspect_out dem H W pw ph i j = none ↔
      (dem i j = none ∨
        pad dem H W ((i : ℤ) - 1) ((j : ℤ) - 1) = none ∨
        pad dem H W ((i : ℤ) - 1) (j : ℤ) = none ∨
        pad dem H W ((i : ℤ) - 1) ((j : ℤ) + 1) = none ∨
        pad dem H W (i : ℤ) ((j : ℤ) - 1) = none ∨
        pad dem H W (i : ℤ) ((j : ℤ) + 1) = none ∨
        pad dem H W ((i : ℤ) + 1) ((j : ℤ) - 1) = none ∨
        pad dem H W ((i : ℤ) + 1) (j : ℤ) = none ∨
        pad dem H W ((i : ℤ) + 1) ((j : ℤ) + 1) = none)) := by
  constructor
  · rw [slope_out_eq_none_iff, dz_dx_eq_none_iff, dz_dy_eq_none_iff]
    tauto
  · rw [aspect_out_eq_none_iff, dz_dx_eq_none_iff, dz_dy_eq_none_iff]
    tauto

/-- Counterexample to C3 as stated: on the 1×2 grid `[0, NaN]`, the cell
`(0,0)` is valid in the input but not-a-number in the slope output,
because its 3×3 neighbourhood reads the no-data cell `(0,1)`. -/
theorem C3_nodata_counterexample :
    slope_out demHole 1 2 30 30 0 0 = none ∧ demHole 0 0 ≠ none := by
  constructor
  · rfl
  · simp [demHole]

/-- C5: the slope and aspect grids returned by the terrain derivative
engine have exactly the shape of the input grid; a cell is not-a-number
in the slope grid iff it is not-a-number in the aspect grid at the same
position; and every input not-a-number cell is not-a-number in both. -/
theorem C5_shape_and_nodata (dem : RGrid) (pw ph : ℝ) :
    (calculate_slope_aspect_horn dem pw ph).1.rows = dem.rows ∧
    (calculate_slope_aspect_horn dem pw ph).1.cols = dem.cols ∧
    (calculate_slope_aspect_horn dem pw ph).2.rows = dem.rows ∧
    (calculate_slope_aspect_horn dem pw ph).2.cols = dem.cols ∧
    ∀ i j,
      ((calculate_slope_aspect_horn dem pw ph).1.val i j = none ↔
        (calculate_slope_aspect_horn dem pw ph).2.val i j = none) ∧
      (dem.val i j = none →
        (calculate_slope_aspect_horn dem pw ph).1.val i j = none ∧
        (calculate_slope_aspect_horn dem pw ph).2.val i j = none) := by
  refine ⟨rfl, rfl, rfl, rfl, ?_⟩
  intro i j
  constructor
  · show slope_out dem.val dem.rows dem.cols pw ph i j = none ↔
      aspect_out dem.val dem.rows dem.cols pw ph i j = none
    rw [slope_out_eq_none_iff, aspect_out_eq_none_iff]
  · intro hd
    constructor
    · show slope_out dem.val dem.rows dem.cols pw ph i j = none
      simp [slope_out, hd]
    · show aspect_out dem.val dem.rows dem.cols pw ph i j = none
      simp [aspect_out, hd]

/-- Witness for C5 on the all-no-data 1×1 grid: both outputs are
not-a-number at `(0,0)`. -/
theorem C5_shape_and_nodata_witness :
    (calculate_slope_aspect_horn demNaN 30 30).1.val 0 0 = none ∧
    (calculate_slope_aspect_horn demNaN 30 30).2.val 0 0 = none :=
  ((C5_shape_and_nodata demNaN 30 30).2.2.2.2 0 0).2 rfl

theorem arctan2_mem (y x : ℝ) : -Real.pi < arctan2 y x ∧ arctan2 y x ≤ Real.pi := by
  have hpi := Real.pi_pos
  unfold arctan2
  split_ifs with hx hx' hy hy' hy''
  · have h1 := Real.arctan_lt_pi_div_two (y / x)
    have h2 := Real.neg_pi_div_two_lt_arctan (y / x)
    constructor <;> linarith
  · have hyx : y / x ≤ 0 := div_nonpos_of_nonneg_of_nonpos hy hx'.le
    have h0 : Real.arctan (y / x) ≤ 0 := by
      calc Real.arctan (y / x) ≤ Real.arctan 0 := Real.arctan_strictMono.monotone hyx
        _ = 0 := Real.arctan_zero
    have h2 := Real.neg_pi_div_two_lt_arctan (y / x)
    constructor <;> linarith
  · have hyneg : y < 0 := lt_of_not_ge hy
    have h1 := Real.arctan_lt_pi_div_two (y / x)
    have h0 : 0 < Real.arctan (y / x) := by
      have hyx : 0 < y / x := div_pos_of_neg_of_neg hyneg hx'
      calc (0 : ℝ) = Real.arctan 0 := Real.arctan_zero.symm
        _ < Real.arctan (y / x) := Real.arctan_strictMono hyx
    constructor <;> linarith
  · constructor <;> linarith
  · constructor <;> linarith
  · constructor <;> linarith

theorem uniform_slope_aspect (dem : ℕ → ℕ → RVal) (c : ℝ)
    (huniform : ∀ i j, dem i j = some c) (H W : ℕ) (pw ph : ℝ) (i j : ℕ) :
    slope_out dem H W pw ph i j = some 0 ∧ aspect_out dem H W pw ph i j = some (-1) := by
  have hpad : ∀ a b : ℤ, pad dem H W a b = some c := fun a b => huniform _ _
  have hgx : dz_dx dem H W pw i j = some 0 := by
    simp only [dz_dx, hpad, Option.some.injEq]
    ring_nf
  have hgy : dz_dy dem H W ph i j = some 0 := by
    simp only [dz_dy, hpad, Option.some.injEq]
    ring_nf
  have hs : slope_deg dem H W pw ph i j = some 0 := by
    simp only [slope_deg, hgx, hgy, Option.some.injEq]
    norm_num [Real.sqrt_zero, Real.arctan_zero]
  constructor
  · simp only [slope_out, huniform i j]
    exact hs
  · simp only [aspect_out, huniform i j, aspect_flat, hs]
    rw [if_pos (by norm_num : (0 : ℝ) < 1 / 1000000)]

/-- C7: on a uniform elevation grid with any positive cell spacing, the
slope is 0 in every cell and the aspect is the flat sentinel −1 in every
cell; the edge-replicating padding keeps both gradients zero at the
boundary too. -/
theorem C7_uniform_flat (dem : RGrid) (c pw ph : ℝ)
    (huniform : ∀ i j, dem.val i j = some c) (hpw : 0 < pw) (hph : 0 < ph) (i j : ℕ) :
    (calculate_slope_aspect_horn dem pw ph).1.val i j = some 0 ∧
    (calculate_slope_aspect_horn dem pw ph).2.val i j = some (-1) :=
  uniform_slope_aspect dem.val c huniform dem.rows dem.cols pw ph i j

/-- Witness for C7 on the uniform 1×1 grid of constant 5. -/
theorem C7_uniform_flat_witness :
    (calculate_slope_aspect_horn demFlat 30 30).1.val 0 0 = some 0 ∧
    (calculate_slope_aspect_horn demFlat 30 30).2.val 0 0 = some (-1) :=
  C7_uniform_flat demFlat 5 30 30 (fun _ _ => rfl) (by norm_num) (by norm_num) 0 0

/-- C4: every valid (non-NaN) cell of the slope grid lies in
`[0, 90]` degrees, and every valid cell of the aspect grid lies in
`[0, 360)` degrees or equals the flat sentinel −1. -/
theorem C4_output_ranges (dem : ℕ → ℕ → RVal) (H W : ℕ) (pw ph : ℝ) (i j : ℕ) :
    (∀ v, slope_out dem H W pw ph i j = some v → 0 ≤ v ∧ v ≤ 90) ∧
    (∀ a, aspect_out dem H W pw ph i j = some a → (0 ≤ a ∧ a < 360) ∨ a = -1) := by
  have hpi := Real.pi_pos
  have hc : (0 : ℝ) < 180 / Real.pi := by positivity
  constructor
  · intro v hv
    cases hd : dem i j with
    | none => simp [slope_out, hd] at hv
    | some z =>
      simp only [slope_out, hd] at hv
      cases hgx : dz_dx dem H W pw i j with
      | none => simp [slope_deg, hgx] at hv
      | some gx =>
        cases hgy : dz_dy dem H W ph i j with
        | none => simp [slope_deg, hgx, hgy] at hv
        | some gy =>
          simp only [slope_deg, hgx, hgy, Option.some.injEq] at hv
          have ht : 0 ≤ Real.sqrt (gx ^ 2 + gy ^ 2) := Real.sqrt_nonneg _
          have h1 : 0 ≤ Real.arctan (Real.sqrt (gx ^ 2 + gy ^ 2)) := by
            calc (0 : ℝ) = Real.arctan 0 := Real.arctan_zero.symm
              _ ≤ Real.arctan (Real.sqrt (gx ^ 2 + gy ^ 2)) :=
                Real.arctan_strictMono.monotone ht
          have h2 : Real.arctan (Real.sqrt (gx ^ 2 + gy ^ 2)) < Real.pi / 2 :=
            Real.arctan_lt_pi_div_two _
          have he : Real.pi / 2 * (180 / Real.pi) = 90 := by
            field_simp
            ring
          constructor
          · rw [← hv]
            exact mul_nonneg h1 hc.le
          · rw [← hv]
            have h3 := mul_le_mul_of_nonneg_right h2.le hc.le
            linarith
  · intro a ha
    cases hd : dem i j with
    | none => simp [aspect_out, hd] at ha
    | some z =>
      simp only [aspect_out, hd] at ha
      cases hgx : dz_dx dem H W pw i j with
      | none => simp [aspect_flat, aspect_norm, aspect_raw, slope_deg, hgx] at ha
      | some gx =>
        cases hgy : dz_dy dem H W ph i j with
        | none => simp [aspect_flat, aspect_norm, aspect_raw, slope_deg, hgx, hgy] at ha
        | some gy =>
          simp only [aspect_flat, aspect_norm, aspect_raw, slope_deg, hgx, hgy] at ha
          have hA := arctan2_mem gx gy
          have hhi : arctan2 gx gy * (180 / Real.pi) ≤ 180 := by
            have h3 := mul_le_mul_of_nonneg_right hA.2 hc.le
            have he : Real.pi * (180 / Real.pi) = 180 := by field_simp
            linarith
          have hlo : -180 < arctan2 gx gy * (180 / Real.pi) := by
            have h3 := mul_lt_mul_of_pos_right hA.1 hc
            have he : -Real.pi * (180 / Real.pi) = -180 := by
              field_simp
              ring
            linarith
          split_ifs at ha with hflat hneg
          · right
            simp only [Option.some.injEq] at ha
            exact ha.symm
          · left
            simp only [Option.some.injEq] at ha
            rw [← ha]
            constructor <;> linarith
          · left
            simp only [Option.some.injEq] at ha
            rw [← ha]
            push_neg at hneg
            constructor <;> linarith

/-- Witness for C4 on the uniform 1×1 grid, whose slope cell is
`some 0 ∈ [0, 90]` and whose aspect cell is the flat sentinel. -/
theorem C4_output_ranges_witness :
    ((0 : ℝ) ≤ 0 ∧ (0 : ℝ) ≤ 90) ∧
      ((0 ≤ (-1 : ℝ) ∧ (-1 : ℝ) < 360) ∨ (-1 : ℝ) = -1) :=
  ⟨(C4_output_ranges demFlat.val 1 1 30 30 0 0).1 0
      (uniform_slope_aspect demFlat.val 5 (fun _ _ => rfl) 1 1 30 30 0 0).1,
   (C4_output_ranges demFlat.val 1 1 30 30 0 0).2 (-1)
      (uniform_slope_aspect demFlat.val 5 (fun _ _ => rfl) 1 1 30 30 0 0).2⟩
